import Mathlib

/-!
Verification of the liquidation-checker core (Bybit cascade trader).

Shallow embedding of `src/src/modules/bybit/bybit.service.ts`,
`trade-tracker.service.ts` and `trading-analytics.service.ts`.
JavaScript numbers are modelled as exact rationals (ℚ); `Math.round`
and `Number.toFixed` both round half toward positive infinity, which
is Mathlib's `round` (`round x = ⌊x + 1/2⌋`).  Timestamps are naturals
(milliseconds).  Network calls are modelled by an environment record
describing the responses the exchange would give.
-/

namespace LiqChecker

/-- Order / liquidation side, the `'Buy' | 'Sell'` union type. -/
inductive Side where
  | Buy
  | Sell
deriving DecidableEq, Repr

/-- Position side as returned by `getCurrentPositions`:
`'Buy' | 'Sell' | 'None'`. -/
inductive PosSide where
  | Buy
  | Sell
  | None
deriving DecidableEq, Repr

/-- Embeds an order side into the position-side type. -/
def sideToPos : Side → PosSide
  | .Buy => .Buy
  | .Sell => .Sell

/-- Value of JavaScript `x.toFixed(n)` (for nonnegative `x`, ties round
up): round `x` to `n` decimal places. -/
def toFixedQ (x : ℚ) (n : ℕ) : ℚ := ((round (x * 10 ^ n) : ℤ) : ℚ) / 10 ^ n

/-- The `adjustPrice` closure of `placeOrder`
(bybit.service.ts:103-106): `Math.round(price / tickSize) * tickSize`. -/
def adjustToTick (price tick : ℚ) : ℚ := ((round (price / tick) : ℤ) : ℚ) * tick

theorem adjustToTick_le (price tick : ℚ) (h : 0 < tick) :
    adjustToTick price tick ≤ price + tick / 2 := by
  unfold adjustToTick
  have h1 : ((round (price / tick) : ℤ) : ℚ) ≤ price / tick + 1 / 2 := by
    rw [round_eq]
    exact_mod_cast Int.floor_le (price / tick + 1 / 2)
  have h2 : (price / tick) * tick = price := by
    field_simp
  nlinarith [mul_le_mul_of_nonneg_right h1 (le_of_lt h)]

theorem lt_adjustToTick (price tick : ℚ) (h : 0 < tick) :
    price - tick / 2 < adjustToTick price tick := by
  unfold adjustToTick
  have h1 : price / tick - 1 / 2 < ((round (price / tick) : ℤ) : ℚ) := by
    rw [round_eq]
    have := Int.lt_floor_add_one (price / tick + 1 / 2)
    push_cast at this ⊢
    linarith
  have h2 : (price / tick) * tick = price := by
    field_simp
  nlinarith [mul_lt_mul_of_pos_right h1 h]

/-! ## Cascade Detector (bybit.service.ts, handleLiquidation lines 228-309)

Per `(symbol, side)` key the detector keeps the cache timestamp
`lastBuyLiquidation`/`lastSellLiquidation` (`cacheTs`, 0 when absent)
and at most one pending 10-second timer.  Arming a timer captures the
cache value just written (`lastLiquidationTime`, our `baseline`); when
the countdown elapses the callback re-reads the cache and places the
contrarian order only if `currentLiquidationTime <= baseline`. -/

/-- Detector state for one `(symbol, side)` key: the cache's `seenAt`
timestamp and the baseline captured by the armed timer, if any
(`none` = no pending timer). -/
structure DetState where
  cacheTs : ℕ
  armed : Option ℕ
deriving DecidableEq, Repr

/-- Cache write performed by `updateLiquidationCache` for this key
(bybit.service.ts:319-324): sets `seenAt := now`.  Kept separate from
arming because the handler suspends on `await` between the two. -/
def detCacheUpdate (s : DetState) (now : ℕ) : DetState :=
  { s with cacheTs := now }

/-- Timer (re-)arming for a qualifying event
(bybit.service.ts:262-275): cancel any existing timer, capture
`lastLiquidationTime` from the cache, start a fresh countdown. -/
def detArm (s : DetState) : DetState :=
  { s with armed := some s.cacheTs }

/-- Full effect of one qualifying event on its key: cache write at
time `now`, then re-arm with the freshly written baseline. -/
def detEvent (s : DetState) (now : ℕ) : DetState :=
  detArm (detCacheUpdate s now)

/-- The timer callback (bybit.service.ts:275-307).  A `setTimeout`
fires at most once, so the pending timer is consumed; the returned
`Bool` is `true` exactly when `currentLiquidationTime ≤
lastLiquidationTime`, i.e. when the contrarian order is requested. -/
def detElapse (s : DetState) : DetState × Bool :=
  match s.armed with
  | none => (s, false)
  | some b => ({ s with armed := none }, decide (s.cacheTs ≤ b))

/-- Runs `n` consecutive timer expirations with no intervening event;
returns the final state and how many order requests were emitted. -/
def runElapses : DetState → ℕ → DetState × ℕ
  | s, 0 => (s, 0)
  | s, n + 1 =>
    let p := detElapse s
    let q := runElapses p.1 n
    (q.1, (if p.2 then 1 else 0) + q.2)

theorem detElapse_unarmed (s : DetState) (h : s.armed = none) :
    detElapse s = (s, false) := by
  simp [detElapse, h]

theorem runElapses_unarmed (s : DetState) (n : ℕ) (h : s.armed = none) :
    runElapses s n = (s, 0) := by
  induction n with
  | zero => rfl
  | succ n ih =>
    unfold runElapses
    rw [detElapse_unarmed s h]
    simp [ih]

theorem detElapse_disarms (s : DetState) : (detElapse s).1.armed = none := by
  cases h : s.armed with
  | none => simp [detElapse, h]
  | some b => simp [detElapse, h]

theorem runElapses_le_one (s : DetState) (n : ℕ) :
    (runElapses s n).2 ≤ 1 := by
  induction n generalizing s with
  | zero => simp [runElapses]
  | succ n ih =>
    unfold runElapses
    have hd := detElapse_disarms s
    have hrest := runElapses_unarmed (detElapse s).1 n hd
    simp only [hrest]
    cases (detElapse s).2 <;> simp

theorem runElapses_superseded (s : DetState) (b : ℕ) (n : ℕ)
    (harm : s.armed = some b) (hnew : b < s.cacheTs) :
    (runElapses s n).2 = 0 := by
  cases n with
  | zero => rfl
  | succ n =>
    unfold runElapses
    have he : detElapse s = ({ s with armed := none }, decide (s.cacheTs ≤ b)) := by
      simp [detElapse, harm]
    have hfalse : decide (s.cacheTs ≤ b) = false := by
      simp [Nat.not_le.mpr hnew]
    rw [he, hfalse]
    have hrest : runElapses { s with armed := none } n = ({ s with armed := none }, 0) :=
      runElapses_unarmed _ n rfl
    simp [hrest]

/-- C1: the Cascade Detector fires at most once per quiescent period.
Over any run of timer expirations with no intervening qualifying
event, at most one contrarian order request is emitted (part 1); if
the cache's `seenAt` is newer than the baseline captured at arming, no
order request is emitted at all (part 2); an order request is emitted
only when the cache timestamp is unchanged from the captured baseline
— given the monotonicity invariant `baseline ≤ cacheTs` that arming
establishes (part 3), and arming captures exactly the just-written
cache timestamp (part 4). -/
theorem cascade_fires_at_most_once :
    (∀ (s : DetState) (n : ℕ), (runElapses s n).2 ≤ 1) ∧
    (∀ (s : DetState) (b n : ℕ), s.armed = some b → b < s.cacheTs →
      (runElapses s n).2 = 0) ∧
    (∀ (s s' : DetState) (b : ℕ), s.armed = some b → b ≤ s.cacheTs →
      detElapse s = (s', true) → s.cacheTs = b) ∧
    (∀ (s : DetState) (now : ℕ),
      (detEvent s now).armed = some now ∧ (detEvent s now).cacheTs = now) := by
  refine ⟨runElapses_le_one, runElapses_superseded, ?_, ?_⟩
  · intro s s' b harm hmono hfire
    have he : detElapse s = ({ s with armed := none }, decide (s.cacheTs ≤ b)) := by
      simp [detElapse, harm]
    rw [he] at hfire
    have : decide (s.cacheTs ≤ b) = true := congrArg Prod.snd hfire
    have hle : s.cacheTs ≤ b := of_decide_eq_true this
    exact le_antisymm hle hmono
  · intro s now
    constructor <;> rfl

/-- Witness for C1 at concrete states: a superseded timer
(baseline 3, cache 5) emits no order over four expirations, and any
run from an armed up-to-date state emits at most one order. -/
theorem cascade_fires_at_most_once_witness :
    (runElapses ⟨5, some 3⟩ 4).2 = 0 ∧ (runElapses ⟨3, some 3⟩ 4).2 ≤ 1 :=
  ⟨cascade_fires_at_most_once.2.1 ⟨5, some 3⟩ 3 4 rfl (by decide),
   cascade_fires_at_most_once.1 ⟨3, some 3⟩ 4⟩

/-! ## Liquidation cache eviction (bybit.service.ts, updateLiquidationCache lines 311-335)

`updateLiquidationCache(symbol, side)` creates the entry on first use,
stamps the side with `now = Date.now()`, and schedules a check 30s
later.  The scheduled check compares the **captured** `now` — not the
current time — against the entry's timestamps and deletes the entry
when `now - lastBuyLiquidation > 30000 && now - lastSellLiquidation >
30000`. -/

/-- `liquidationCache[symbol]`: per-symbol pair of last-liquidation
timestamps (milliseconds). -/
structure CacheEntry where
  lastBuyLiquidation : ℕ
  lastSellLiquidation : ℕ
deriving DecidableEq, Repr

/-- The cache write of `updateLiquidationCache`: create `{0, 0}` if
absent, then stamp the given side with `now`. -/
def updateLiquidationCache (c : Option CacheEntry) (side : Side) (now : ℕ) : CacheEntry :=
  let e := c.getD ⟨0, 0⟩
  match side with
  | .Buy => { e with lastBuyLiquidation := now }
  | .Sell => { e with lastSellLiquidation := now }

/-- The eviction condition evaluated by the `setTimeout` callback of
`updateLiquidationCache`, with `capturedNow` the `now` captured at
scheduling time and `e` the entry at callback time.  JavaScript's
`now - ts > 30000` on nonnegative ints is `capturedNow > ts + 30000`. -/
def evictionCheck (capturedNow : ℕ) (e : CacheEntry) : Bool :=
  decide (e.lastBuyLiquidation + 30000 < capturedNow) &&
    decide (e.lastSellLiquidation + 30000 < capturedNow)

/-- C4 (code bug): the eviction callback never removes a cache entry.
The update that schedules the check stamps its own side with the
captured `now` (part 1), timestamps only grow afterwards, and the
check compares the captured `now` — not the current time — against
the timestamps, so the stamped side always refutes the conjunction
(part 2): `evictionCheck` is `false` at every entry whose stamped side
is still ≥ `now`, hence the entry outlives every scheduled check. -/
theorem eviction_never_fires :
    (∀ (c : Option CacheEntry) (side : Side) (now : ℕ),
      (side = .Buy → (updateLiquidationCache c side now).lastBuyLiquidation = now) ∧
      (side = .Sell → (updateLiquidationCache c side now).lastSellLiquidation = now)) ∧
    (∀ (side : Side) (now : ℕ) (e : CacheEntry),
      (side = .Buy → now ≤ e.lastBuyLiquidation) →
      (side = .Sell → now ≤ e.lastSellLiquidation) →
      evictionCheck now e = false) := by
  constructor
  · intro c side now
    cases side <;> simp [updateLiquidationCache]
  · intro side now e hb hs
    cases side with
    | Buy =>
      have h := hb rfl
      simp only [evictionCheck, Bool.and_eq_false_iff, decide_eq_false_iff_not, Nat.not_lt]
      left
      omega
    | Sell =>
      have h := hs rfl
      simp only [evictionCheck, Bool.and_eq_false_iff, decide_eq_false_iff_not, Nat.not_lt]
      right
      omega

/-- Witness for C4 at the failing input: a lone Buy liquidation at
t = 1000 stamps the entry, and the check scheduled for 30s later
(comparing against the captured `now = 1000`) does not evict — nor
does any later check, since timestamps never decrease. -/
theorem eviction_never_fires_witness :
    (updateLiquidationCache none Side.Buy 1000).lastBuyLiquidation = 1000 ∧
      evictionCheck 1000 ⟨1000, 0⟩ = false :=
  ⟨(eviction_never_fires.1 none Side.Buy 1000).1 rfl,
   eviction_never_fires.2 Side.Buy 1000 ⟨1000, 0⟩ (fun _ => by decide) (fun h => by cases h)⟩

/-! ## Order Sizer (bybit.service.ts, calculateValidQty lines 169-226)

`calculateValidQty(symbol, price, qty)` picks a price-dependent
decimal precision, rounds `qty` to it (`toFixed(precision)` then
`parseFloat`), rounds to the symbol's minimum step, floors at the
symbol's minimum quantity, and finally formats the result with
`toFixed(precision)` again (the trailing-zero strip
`.replace(/\.?0+$/, '')` does not change the numeric value). -/

/-- `getMinStep` lookup table (bybit.service.ts:204-214). -/
def getMinStep (symbol : String) : ℚ :=
  if symbol = "BTCUSDT" then 1 / 1000
  else if symbol = "ETHUSDT" then 1 / 100
  else if symbol = "SOLUSDT" then 1 / 10
  else if symbol = "BNBUSDT" then 1 / 100
  else if symbol = "1000PEPEUSDT" then 100
  else 1 / 1000

/-- `getMinQty` lookup table (bybit.service.ts:216-226). -/
def getMinQty (symbol : String) : ℚ :=
  if symbol = "BTCUSDT" then 1 / 1000
  else if symbol = "ETHUSDT" then 1 / 100
  else if symbol = "SOLUSDT" then 1 / 10
  else if symbol = "BNBUSDT" then 1 / 100
  else if symbol = "1000PEPEUSDT" then 100
  else 1 / 1000

/-- Price-dependent decimal precision (bybit.service.ts:175-183). -/
def qtyPrecision (price : ℚ) : ℕ :=
  if price ≥ 10000 then 3
  else if price ≥ 1000 then 2
  else 1

/-- The quantity value before the final formatting: `toFixed`
rounding, step rounding, and the `minQty` floor
(bybit.service.ts:190-198). -/
def calculateValidQtyRaw (symbol : String) (price qty : ℚ) : ℚ :=
  let precision := qtyPrecision price
  let minStep := getMinStep symbol
  let minQty := getMinQty symbol
  let r1 := toFixedQ qty precision
  let r2 := if 0 < minStep then ((round (r1 / minStep) : ℤ) : ℚ) * minStep else r1
  max minQty r2

/-- Numeric value of the string `calculateValidQty` returns: the raw
quantity re-rounded by the final `toFixed(precision)`
(bybit.service.ts:201; stripping trailing zeros keeps the value). -/
def calculateValidQty (symbol : String) (price qty : ℚ) : ℚ :=
  toFixedQ (calculateValidQtyRaw symbol price qty) (qtyPrecision price)

theorem toFixedQ_intCast_mul (J : ℤ) (step : ℚ) (p : ℕ) (s : ℤ)
    (hs : step * 10 ^ p = (s : ℚ)) :
    toFixedQ ((J : ℚ) * step) p = (J : ℚ) * step := by
  unfold toFixedQ
  have h10 : (10 : ℚ) ^ p ≠ 0 := by positivity
  have harg : (J : ℚ) * step * 10 ^ p = ((J * s : ℤ) : ℚ) := by
    push_cast
    rw [mul_assoc, hs]
  rw [harg, round_intCast, div_eq_iff h10]
  push_cast
  rw [mul_assoc, hs]

theorem toFixedQ_coarse (x step : ℚ) (p : ℕ) (m : ℤ)
    (hm : (1 : ℚ) / 10 ^ p = (m : ℚ) * step) :
    ∃ k : ℤ, toFixedQ x p = (k : ℚ) * step := by
  refine ⟨round (x * 10 ^ p) * m, ?_⟩
  unfold toFixedQ
  have h : ((round (x * 10 ^ p) : ℤ) : ℚ) / 10 ^ p
      = ((round (x * 10 ^ p) : ℤ) : ℚ) * ((1 : ℚ) / 10 ^ p) := by ring
  rw [h, hm]
  push_cast
  ring

theorem toFixedQ_step_closed (J : ℤ) (step : ℚ) (p : ℕ)
    (h : (∃ s : ℤ, step * 10 ^ p = (s : ℚ)) ∨ (∃ m : ℤ, (1 : ℚ) / 10 ^ p = (m : ℚ) * step)) :
    ∃ k : ℤ, toFixedQ ((J : ℚ) * step) p = (k : ℚ) * step := by
  rcases h with ⟨s, hs⟩ | ⟨m, hm⟩
  · exact ⟨J, toFixedQ_intCast_mul J step p s hs⟩
  · exact toFixedQ_coarse _ step p m hm

theorem calculateValidQtyRaw_multiple (symbol : String) (price qty : ℚ)
    (hq : getMinQty symbol = getMinStep symbol) (h0 : 0 < getMinStep symbol) :
    ∃ J : ℤ, calculateValidQtyRaw symbol price qty = (J : ℚ) * getMinStep symbol := by
  refine ⟨max 1 (round (toFixedQ qty (qtyPrecision price) / getMinStep symbol)), ?_⟩
  simp only [calculateValidQtyRaw, hq, if_pos h0]
  push_cast
  rw [max_mul_of_nonneg _ _ (le_of_lt h0), one_mul]

theorem qtyPrecision_cases (price : ℚ) :
    qtyPrecision price = 1 ∨ qtyPrecision price = 2 ∨ qtyPrecision price = 3 := by
  unfold qtyPrecision
  split_ifs <;> simp

theorem getMinStep_cases (symbol : String) :
    getMinStep symbol = 1 / 1000 ∨ getMinStep symbol = 1 / 100 ∨
      getMinStep symbol = 1 / 10 ∨ getMinStep symbol = 100 := by
  unfold getMinStep
  split_ifs <;> simp

theorem getMinQty_eq_minStep (symbol : String) :
    getMinQty symbol = getMinStep symbol := by
  unfold getMinQty getMinStep
  split_ifs <;> rfl

/-- C5 (amended): the delivered quantity is always an exact integer
multiple of the instrument's quantity step, and the quantity **before
the final decimal formatting** is ≥ the instrument's minimum quantity;
the formatted output itself can drop below `minQty` (see the
counterexample). -/
theorem calculateValidQty_step_multiple :
    ∀ (symbol : String) (price qty : ℚ),
      (∃ k : ℤ, calculateValidQty symbol price qty = (k : ℚ) * getMinStep symbol) ∧
      getMinQty symbol ≤ calculateValidQtyRaw symbol price qty := by
  intro symbol price qty
  have hq := getMinQty_eq_minStep symbol
  have hstep4 := getMinStep_cases symbol
  have h0 : 0 < getMinStep symbol := by
    rcases hstep4 with h | h | h | h <;> rw [h] <;> norm_num
  constructor
  · obtain ⟨J, hJ⟩ := calculateValidQtyRaw_multiple symbol price qty hq h0
    unfold calculateValidQty
    rw [hJ]
    rcases hstep4 with h | h | h | h <;> rw [h] <;>
      rcases qtyPrecision_cases price with hp | hp | hp <;> rw [hp] <;>
      first
        | (refine toFixedQ_step_closed J _ _ (Or.inr ⟨1, ?_⟩); norm_num; done)
        | (refine toFixedQ_step_closed J _ _ (Or.inr ⟨10, ?_⟩); norm_num; done)
        | (refine toFixedQ_step_closed J _ _ (Or.inr ⟨100, ?_⟩); norm_num; done)
        | (refine toFixedQ_step_closed J _ _ (Or.inl ⟨10, ?_⟩); norm_num; done)
        | (refine toFixedQ_step_closed J _ _ (Or.inl ⟨100, ?_⟩); norm_num; done)
        | (refine toFixedQ_step_closed J _ _ (Or.inl ⟨1000, ?_⟩); norm_num; done)
        | (refine toFixedQ_step_closed J _ _ (Or.inl ⟨10000, ?_⟩); norm_num; done)
        | (refine toFixedQ_step_closed J _ _ (Or.inl ⟨100000, ?_⟩); norm_num; done)
  · simp only [calculateValidQtyRaw]
    exact le_max_left _ _

/-- C5 counterexample: for ETHUSDT at price 999 (precision 1) and
target quantity 1/999, the `minQty` floor yields 0.01 but the final
`toFixed(1)` formatting rounds it down to 0, so the delivered
quantity is **below** the instrument's minimum quantity. -/
theorem calculateValidQty_below_minQty :
    calculateValidQty "ETHUSDT" 999 (1 / 999) = 0 ∧
      calculateValidQty "ETHUSDT" 999 (1 / 999) < getMinQty "ETHUSDT" := by
  have h1 : ("ETHUSDT" : String) ≠ "BTCUSDT" := by decide
  constructor <;>
    norm_num [calculateValidQty, calculateValidQtyRaw, toFixedQ, qtyPrecision,
      getMinStep, getMinQty, round_eq, h1]

/-! ## Protection levels (bybit.service.ts, placeOrder lines 88-109)

`placeOrder` computes `TP = price * (1 ± tpPct/100)` and
`SL = price * (1 ∓ stopPct/100)` (the code hard-wires `tpPct = 1`,
`stopPct = 0.35`) and tick-adjusts both with `adjustPrice`.  The
percentages are abstracted as parameters, per the spec's
`computeProtectionLevels(side, entryPrice, tpPct, stopPct, tick)`. -/

/-- Raw take-profit price before tick adjustment
(bybit.service.ts:92-95). -/
def takeProfitRawP (side : Side) (price tpPct : ℚ) : ℚ :=
  match side with
  | .Buy => price * (1 + tpPct / 100)
  | .Sell => price * (1 - tpPct / 100)

/-- Raw stop-loss price before tick adjustment
(bybit.service.ts:97-100). -/
def stopLossRawP (side : Side) (price stopPct : ℚ) : ℚ :=
  match side with
  | .Buy => price * (1 - stopPct / 100)
  | .Sell => price * (1 + stopPct / 100)

/-- `computeProtectionLevels` of spec §4.2: both raw protection
prices, tick-adjusted (bybit.service.ts:108-109). -/
def computeProtectionLevels (side : Side) (entry tpPct stopPct tick : ℚ) : ℚ × ℚ :=
  (adjustToTick (takeProfitRawP side entry tpPct) tick,
   adjustToTick (stopLossRawP side entry stopPct) tick)

/-- C3 counterexample: with the code's own percentages (tp 1%,
stop 0.35%), entry 100 and tick 1 — all within the claim's premises —
the tick-adjusted stop-loss of a long lands exactly on the entry
price (`round(99.65) = 100`), so `entry > SL` fails. -/
theorem computeProtectionLevels_bracket_fails :
    (0 : ℚ) < 100 ∧ (0 : ℚ) < 1 ∧ (1 : ℚ) < 100 ∧
      (0 : ℚ) < 7 / 20 ∧ (7 / 20 : ℚ) < 100 ∧ (0 : ℚ) < 1 ∧
      (computeProtectionLevels Side.Buy 100 1 (7 / 20) 1).2 = 100 ∧
      ¬ (computeProtectionLevels Side.Buy 100 1 (7 / 20) 1).2 < 100 := by
  refine ⟨by norm_num, by norm_num, by norm_num, by norm_num, by norm_num, by norm_num, ?_, ?_⟩ <;>
    norm_num [computeProtectionLevels, stopLossRawP, adjustToTick, round_eq]

/-- C3 (amended): the bracket invariant `TP > entry > SL` for longs
(`TP < entry < SL` for shorts) holds for every positive entry price,
percentages in (0,100) and positive tick, **provided** the tick is
smaller than twice each protection distance
(`tick < 2·entry·tpPct/100` and `tick < 2·entry·stopPct/100`);
without that bound the nearest-tick rounding can move a protection
price onto or across the entry (see the counterexample). -/
theorem computeProtectionLevels_bracket (side : Side) (entry tpPct stopPct tick : ℚ)
    (hentry : 0 < entry) (htp0 : 0 < tpPct) (htp1 : tpPct < 100)
    (hsl0 : 0 < stopPct) (hsl1 : stopPct < 100) (htick : 0 < tick)
    (htickTp : tick < 2 * entry * (tpPct / 100))
    (htickSl : tick < 2 * entry * (stopPct / 100)) :
    (side = Side.Buy →
      entry < (computeProtectionLevels side entry tpPct stopPct tick).1 ∧
      (computeProtectionLevels side entry tpPct stopPct tick).2 < entry) ∧
    (side = Side.Sell →
      (computeProtectionLevels side entry tpPct stopPct tick).1 < entry ∧
      entry < (computeProtectionLevels side entry tpPct stopPct tick).2) := by
  cases side with
  | Buy =>
    refine ⟨fun _ => ⟨?_, ?_⟩, fun h => Side.noConfusion h⟩
    · have htpr : takeProfitRawP Side.Buy entry tpPct = entry + entry * (tpPct / 100) := by
        unfold takeProfitRawP
        ring
      have hlo := lt_adjustToTick (takeProfitRawP Side.Buy entry tpPct) tick htick
      rw [htpr] at hlo
      simp only [computeProtectionLevels]
      rw [htpr]
      linarith
    · have hslr : stopLossRawP Side.Buy entry stopPct = entry - entry * (stopPct / 100) := by
        unfold stopLossRawP
        ring
      have hhi := adjustToTick_le (stopLossRawP Side.Buy entry stopPct) tick htick
      rw [hslr] at hhi
      simp only [computeProtectionLevels]
      rw [hslr]
      linarith
  | Sell =>
    refine ⟨fun h => Side.noConfusion h, fun _ => ⟨?_, ?_⟩⟩
    · have htpr : takeProfitRawP Side.Sell entry tpPct = entry - entry * (tpPct / 100) := by
        unfold takeProfitRawP
        ring
      have hhi := adjustToTick_le (takeProfitRawP Side.Sell entry tpPct) tick htick
      rw [htpr] at hhi
      simp only [computeProtectionLevels]
      rw [htpr]
      linarith
    · have hslr : stopLossRawP Side.Sell entry stopPct = entry + entry * (stopPct / 100) := by
        unfold stopLossRawP
        ring
      have hlo := lt_adjustToTick (stopLossRawP Side.Sell entry stopPct) tick htick
      rw [hslr] at hlo
      simp only [computeProtectionLevels]
      rw [hslr]
      linarith

/-- Witness for the amended C3: entry 100, both percentages 1%,
tick 0.01 (< 2·100·0.01 = 2): the long bracket comes out
`101 > 100 > 99`. -/
theorem computeProtectionLevels_bracket_witness :
    100 < (computeProtectionLevels Side.Buy 100 1 1 (1 / 100)).1 ∧
      (computeProtectionLevels Side.Buy 100 1 1 (1 / 100)).2 < 100 :=
  (computeProtectionLevels_bracket Side.Buy 100 1 1 (1 / 100) (by norm_num) (by norm_num)
    (by norm_num) (by norm_num) (by norm_num) (by norm_num) (by norm_num) (by norm_num)).1 rfl

/-! ## Order Execution Gate (bybit.service.ts, placeOrder lines 48-167,
getCurrentPositions lines 337-366)

`placeOrder` fetches instrument info, checks the current position,
fetches the last price, sizes the order, computes and tick-adjusts
TP/SL, validates the take-profit, and submits a market order whose
`takeProfit`/`stopLoss` fields carry `toFixed(2)` strings.  The
exchange responses are modelled by `ExchangeEnv`. -/

/-- One row of `getPositionInfo`'s `result.list`. -/
structure PositionRow where
  side : PosSide
  size : ℚ
deriving DecidableEq, Repr

/-- Outcome of the `getPositionInfo` call: a thrown error, or a
response with a return code and a position list. -/
inductive PosQueryOutcome where
  | failure
  | response (retCode : ℤ) (list : List PositionRow)
deriving DecidableEq, Repr

/-- `getCurrentPositions` (bybit.service.ts:337-366): any failure,
non-zero return code, empty list or zero size collapses to
`{side: 'None', size: 0}`; otherwise the head row's side is mapped to
Buy/Sell. -/
def getCurrentPositions : PosQueryOutcome → PositionRow
  | .failure => ⟨.None, 0⟩
  | .response retCode list =>
    if retCode ≠ 0 then ⟨.None, 0⟩
    else
      match list with
      | [] => ⟨.None, 0⟩
      | p :: _ =>
        if p.size = 0 then ⟨.None, 0⟩
        else ⟨if p.side = .Buy then .Buy else .Sell, p.size⟩

/-- Exchange responses consumed by one `placeOrder` call. -/
structure ExchangeEnv where
  instrumentFound : Bool
  tickSize : ℚ
  posQuery : PosQueryOutcome
  lastPrice : ℚ
  submitRetCode : ℤ
deriving DecidableEq, Repr

/-- Parameters of the submitted market order: the quantity string's
value and the values of the `takeProfit`/`stopLoss` `toFixed(2)`
strings. -/
structure OrderParams where
  qty : ℚ
  takeProfit : ℚ
  stopLoss : ℚ
deriving DecidableEq, Repr

/-- Terminal outcome of `placeOrder`: a thrown/caught error, the
`{skipped: true}` return, or the exchange response. -/
inductive PlaceOrderResult where
  | errored
  | skipped
  | submitted (retCode : ℤ)
deriving DecidableEq, Repr

/-- Observable effects of one `placeOrder` call: whether the ticker
price was fetched, the order sent to the exchange (if any), and the
terminal result. -/
structure PlaceOrderOutcome where
  priceFetched : Bool
  order : Option OrderParams
  result : PlaceOrderResult
deriving DecidableEq, Repr

/-- `placeOrder` (bybit.service.ts:48-167) with the code's hard-wired
`takeProfitPercent = 1`, `stopLossPercent = 0.35`. -/
def placeOrder (env : ExchangeEnv) (symbol : String) (side : Side) (usdAmount : ℚ) :
    PlaceOrderOutcome :=
  if ¬env.instrumentFound then ⟨false, none, .errored⟩
  else
    let currentPosition := getCurrentPositions env.posQuery
    if currentPosition.side = sideToPos side ∧ 0 < currentPosition.size then
      ⟨false, none, .skipped⟩
    else
      let currentPrice := env.lastPrice
      let qty := usdAmount / currentPrice
      let roundedQty := calculateValidQty symbol currentPrice qty
      let takeProfitPrice := adjustToTick (takeProfitRawP side currentPrice 1) env.tickSize
      let stopLossPrice := adjustToTick (stopLossRawP side currentPrice (7 / 20)) env.tickSize
      if side = .Sell ∧ takeProfitPrice ≥ currentPrice then ⟨true, none, .errored⟩
      else if side = .Buy ∧ takeProfitPrice ≤ currentPrice then ⟨true, none, .errored⟩
      else
        ⟨true, some ⟨roundedQty, toFixedQ takeProfitPrice 2, toFixedQ stopLossPrice 2⟩,
          .submitted env.submitRetCode⟩

/-- The bracket invariant of spec §4.2 on tick-adjusted prices. -/
def bracketOk (side : Side) (tp entry sl : ℚ) : Prop :=
  match side with
  | .Buy => tp > entry ∧ entry > sl
  | .Sell => tp < entry ∧ entry < sl

/-- The only validation `placeOrder` actually performs: the
take-profit side of the bracket (bybit.service.ts:111-121). -/
def tpSideOk (side : Side) (tp entry : ℚ) : Prop :=
  match side with
  | .Buy => entry < tp
  | .Sell => tp < entry

/-- C7: when the queried position reports the same side as the
requested order with positive size, the gate skips: it returns the
`skipped` result without fetching a price and without submitting any
order (the instrument lookup, which precedes the check in the code,
is assumed to have succeeded). -/
theorem placeOrder_skips_on_conflict (env : ExchangeEnv) (symbol : String) (side : Side)
    (usdAmount : ℚ) (hinstr : env.instrumentFound = true)
    (hside : (getCurrentPositions env.posQuery).side = sideToPos side)
    (hsize : 0 < (getCurrentPositions env.posQuery).size) :
    placeOrder env symbol side usdAmount =
      ⟨false, none, PlaceOrderResult.skipped⟩ := by
  unfold placeOrder
  rw [hinstr]
  simp [hside, hsize]

/-- Witness for C7: with an open long of size 2 reported for the
symbol, a Buy request is skipped with no price fetch and no order. -/
theorem placeOrder_skips_on_conflict_witness :
    placeOrder ⟨true, 1 / 100, .response 0 [⟨.Buy, 2⟩], 50, 0⟩ "SOLUSDT" Side.Buy 1000 =
      ⟨false, none, PlaceOrderResult.skipped⟩ :=
  placeOrder_skips_on_conflict _ "SOLUSDT" Side.Buy 1000 rfl (by norm_num [getCurrentPositions, sideToPos])
    (by norm_num [getCurrentPositions])

/-- C2 counterexample: entry 100, tick 1, long, the code's
percentages: the tick-adjusted stop-loss rounds onto the entry
(`round(99.65) = 100`), so the bracket invariant is violated, yet
`placeOrder` still submits the order — the stop-loss side is never
validated. -/
theorem placeOrder_submits_inverted_bracket :
    (placeOrder ⟨true, 1, .response 0 [], 100, 0⟩ "BTCUSDT" Side.Buy 1000).order ≠ none ∧
      ¬ bracketOk Side.Buy (adjustToTick (takeProfitRawP Side.Buy 100 1) 1) 100
          (adjustToTick (stopLossRawP Side.Buy 100 (7 / 20)) 1) := by
  constructor
  · have hne : Side.Buy ≠ Side.Sell := fun h => by cases h
    norm_num [placeOrder, getCurrentPositions, sideToPos, adjustToTick,
      takeProfitRawP, stopLossRawP, round_eq, hne]
    simp
  · norm_num [bracketOk, adjustToTick, takeProfitRawP, stopLossRawP, round_eq]

theorem placeOrder_order_isSome_iff_tpOk (env : ExchangeEnv) (symbol : String) (side : Side)
    (usdAmount : ℚ) (hinstr : env.instrumentFound = true)
    (hnoconf : ¬((getCurrentPositions env.posQuery).side = sideToPos side ∧
      0 < (getCurrentPositions env.posQuery).size)) :
    (placeOrder env symbol side usdAmount).order.isSome = true ↔
      tpSideOk side (adjustToTick (takeProfitRawP side env.lastPrice 1) env.tickSize)
        env.lastPrice := by
  unfold placeOrder
  have h1 : ¬¬(env.instrumentFound : Prop) := by
    rw [hinstr]
    simp
  rw [if_neg h1]
  dsimp only
  split_ifs with hsellv hbuyv
  · obtain ⟨hs, hge⟩ := hsellv
    subst hs
    simp only [Option.isSome_none, Bool.false_eq_true, false_iff, tpSideOk]
    exact not_lt.mpr hge
  · obtain ⟨hb, hle⟩ := hbuyv
    subst hb
    simp only [Option.isSome_none, Bool.false_eq_true, false_iff, tpSideOk]
    exact not_lt.mpr hle
  · simp only [Option.isSome_some, true_iff]
    cases side with
    | Buy =>
      simp only [tpSideOk]
      exact not_le.mp (not_and.mp hbuyv rfl)
    | Sell =>
      simp only [tpSideOk]
      exact not_le.mp (not_and.mp hsellv rfl)

/-- C2 (amended): once the gate passes the instrument lookup and the
conflict check, order submission is aborted **iff** the tick-adjusted
take-profit violates its side of the invariant (long: TP ≤ entry,
short: TP ≥ entry); the stop-loss side of the bracket is not
validated, so an order with an inverted stop-loss can be submitted. -/
theorem placeOrder_validates_only_tp (env : ExchangeEnv) (symbol : String) (side : Side)
    (usdAmount : ℚ) (hinstr : env.instrumentFound = true)
    (hnoconf : ¬((getCurrentPositions env.posQuery).side = sideToPos side ∧
      0 < (getCurrentPositions env.posQuery).size)) :
    (placeOrder env symbol side usdAmount).order.isSome = true ↔
      tpSideOk side (adjustToTick (takeProfitRawP side env.lastPrice 1) env.tickSize)
        env.lastPrice :=
  placeOrder_order_isSome_iff_tpOk env symbol side usdAmount hinstr hnoconf

/-- Witness for the amended C2: instrument found, no open position,
entry 100, tick 0.01, long: the tick-adjusted TP is 101 > 100, so the
order is submitted. -/
theorem placeOrder_validates_only_tp_witness :
    (placeOrder ⟨true, 1 / 100, .response 0 [], 100, 0⟩ "BTCUSDT" Side.Buy 1000).order.isSome
      = true :=
  (placeOrder_validates_only_tp ⟨true, 1 / 100, .response 0 [], 100, 0⟩ "BTCUSDT" Side.Buy 1000
    rfl (by norm_num [getCurrentPositions])).mpr
    (by norm_num [tpSideOk, adjustToTick, takeProfitRawP, round_eq])

/-- The degenerate outcomes of the position query: a thrown error, a
non-zero return code, or an empty result list. -/
def posQueryDegenerate (o : PosQueryOutcome) : Prop :=
  o = .failure ∨ ∃ rc list, o = .response rc list ∧ (rc ≠ 0 ∨ list = [])

/-- C9: a failed position query (thrown error, non-zero return code
or empty list) is mapped to `{side: 'None', size: 0}`, so the gate
does not skip and does not propagate the failure: it fetches the
price and — whenever the take-profit validation passes — submits the
order. -/
theorem placeOrder_proceeds_on_query_failure (env : ExchangeEnv) (symbol : String)
    (side : Side) (usdAmount : ℚ) (hinstr : env.instrumentFound = true)
    (hdeg : posQueryDegenerate env.posQuery) :
    getCurrentPositions env.posQuery = ⟨.None, 0⟩ ∧
      (placeOrder env symbol side usdAmount).priceFetched = true ∧
      (placeOrder env symbol side usdAmount).result ≠ PlaceOrderResult.skipped ∧
      (tpSideOk side (adjustToTick (takeProfitRawP side env.lastPrice 1) env.tickSize)
          env.lastPrice →
        (placeOrder env symbol side usdAmount).order.isSome = true) := by
  have hnone : getCurrentPositions env.posQuery = ⟨.None, 0⟩ := by
    rcases hdeg with h | ⟨rc, list, h, hrl⟩
    · rw [h]
      rfl
    · rw [h]
      rcases hrl with hrc | hl
      · simp [getCurrentPositions, hrc]
      · subst hl
        simp only [getCurrentPositions]
        split_ifs <;> rfl
  have hnoconf : ¬((getCurrentPositions env.posQuery).side = sideToPos side ∧
      0 < (getCurrentPositions env.posQuery).size) := by
    rw [hnone]
    rintro ⟨-, habs⟩
    exact lt_irrefl 0 habs
  have h1 : ¬¬(env.instrumentFound : Prop) := by
    rw [hinstr]
    simp
  refine ⟨hnone, ?_, ?_, ?_⟩
  · unfold placeOrder
    rw [if_neg h1]
    dsimp only
    rw [if_neg hnoconf]
    split_ifs <;> rfl
  · unfold placeOrder
    rw [if_neg h1]
    dsimp only
    rw [if_neg hnoconf]
    split_ifs <;> simp
  · intro htp
    exact (placeOrder_order_isSome_iff_tpOk env symbol side usdAmount hinstr hnoconf).mpr htp

/-- Witness for C9: instrument found, position query throws, entry
100, tick 0.01, long: no skip, the price is fetched, and the order is
submitted. -/
theorem placeOrder_proceeds_on_query_failure_witness :
    getCurrentPositions (ExchangeEnv.posQuery ⟨true, 1 / 100, .failure, 100, 0⟩) = ⟨.None, 0⟩ ∧
      (placeOrder ⟨true, 1 / 100, .failure, 100, 0⟩ "BTCUSDT" Side.Buy 1000).priceFetched = true ∧
      (placeOrder ⟨true, 1 / 100, .failure, 100, 0⟩ "BTCUSDT" Side.Buy 1000).result ≠
        PlaceOrderResult.skipped ∧
      (tpSideOk Side.Buy (adjustToTick (takeProfitRawP Side.Buy 100 1) (1 / 100)) 100 →
        (placeOrder ⟨true, 1 / 100, .failure, 100, 0⟩ "BTCUSDT" Side.Buy 1000).order.isSome
          = true) :=
  placeOrder_proceeds_on_query_failure ⟨true, 1 / 100, .failure, 100, 0⟩ "BTCUSDT" Side.Buy 1000
    rfl (Or.inl rfl)

/-- C10: the protection prices sent to the exchange are the
`toFixed(2)` re-roundings of the tick-adjusted prices (part 1); and
at tick 0.003, entry 100.3, the submitted take-profit (101.30)
differs from the tick-adjusted take-profit (101.304) and is not a
multiple of the tick (part 2). -/
theorem placeOrder_sends_twoDecimal_protections :
    (∀ (env : ExchangeEnv) (symbol : String) (side : Side) (usdAmount : ℚ) (p : OrderParams),
      (placeOrder env symbol side usdAmount).order = some p →
      p.takeProfit = toFixedQ (adjustToTick (takeProfitRawP side env.lastPrice 1) env.tickSize) 2 ∧
      p.stopLoss = toFixedQ (adjustToTick (stopLossRawP side env.lastPrice (7 / 20))
        env.tickSize) 2) ∧
    (∃ p : OrderParams,
      (placeOrder ⟨true, 3 / 1000, .response 0 [], 1003 / 10, 0⟩ "BTCUSDT" Side.Buy 1000).order
        = some p ∧
      p.takeProfit ≠ adjustToTick (takeProfitRawP Side.Buy (1003 / 10) 1) (3 / 1000) ∧
      ∀ k : ℤ, p.takeProfit ≠ (k : ℚ) * (3 / 1000)) := by
  constructor
  · intro env symbol side usdAmount p h
    unfold placeOrder at h
    by_cases hi : (env.instrumentFound : Prop)
    · rw [if_neg (not_not_intro hi)] at h
      dsimp only at h
      split_ifs at h
      simp only [Option.some.injEq] at h
      subst h
      exact ⟨rfl, rfl⟩
    · rw [if_pos hi] at h
      exact Option.noConfusion h
  · refine ⟨⟨10, 1013 / 10, 1999 / 20⟩, ?_, ?_, ?_⟩
    · have hne : Side.Buy ≠ Side.Sell := fun h => by cases h
      norm_num [placeOrder, getCurrentPositions, sideToPos, adjustToTick, takeProfitRawP,
        stopLossRawP, toFixedQ, calculateValidQty, calculateValidQtyRaw, qtyPrecision,
        getMinStep, getMinQty, round_eq, hne]
    · norm_num [adjustToTick, takeProfitRawP, round_eq]
    · intro k hk
      have h3 : (3 * k : ℚ) = 101300 := by
        field_simp at hk
        linarith
      have h4 : (3 * k : ℤ) = 101300 := by
        exact_mod_cast h3
      omega

/-- Witness for C10 part 1 at the concrete submission of part 2: the
submitted protection prices equal the two-decimal roundings of the
tick-adjusted prices. -/
theorem placeOrder_sends_twoDecimal_protections_witness :
    (1013 / 10 : ℚ) =
        toFixedQ (adjustToTick (takeProfitRawP Side.Buy (1003 / 10) 1) (3 / 1000)) 2 ∧
      (1999 / 20 : ℚ) =
        toFixedQ (adjustToTick (stopLossRawP Side.Buy (1003 / 10) (7 / 20)) (3 / 1000)) 2 :=
  placeOrder_sends_twoDecimal_protections.1 ⟨true, 3 / 1000, .response 0 [], 1003 / 10, 0⟩
    "BTCUSDT" Side.Buy 1000 ⟨10, 1013 / 10, 1999 / 20⟩
    (by
      have hne : Side.Buy ≠ Side.Sell := fun h => by cases h
      norm_num [placeOrder, getCurrentPositions, sideToPos, adjustToTick, takeProfitRawP,
        stopLossRawP, toFixedQ, calculateValidQty, calculateValidQtyRaw, qtyPrecision,
        getMinStep, getMinQty, round_eq, hne])

/-! ## Position Lifecycle Tracker (trade-tracker.service.ts)

`determineClosedType` (lines 98-114) classifies a detected closure by
comparing the exit price to the stored TP/SL thresholds, side-aware;
`calculatePnl` (lines 116-123) computes the realized PnL. -/

/-- A tracked position (trade-tracker.service.ts:8-16). -/
structure TrackedPosition where
  symbol : String
  side : Side
  entryPrice : ℚ
  takeProfit : ℚ
  stopLoss : ℚ
  size : ℚ
  openedAt : ℕ
deriving DecidableEq, Repr

/-- `closedType` values: `'TP' | 'SL' | 'Manual'`. -/
inductive ClosedType where
  | TP
  | SL
  | Manual
deriving DecidableEq, Repr

/-- `determineClosedType` (trade-tracker.service.ts:98-114). -/
def determineClosedType (position : TrackedPosition) (exitPrice : ℚ) : ClosedType :=
  match position.side with
  | .Buy =>
    if exitPrice ≥ position.takeProfit then .TP
    else if exitPrice ≤ position.stopLoss then .SL
    else .Manual
  | .Sell =>
    if exitPrice ≤ position.takeProfit then .TP
    else if exitPrice ≥ position.stopLoss then .SL
    else .Manual

/-- `calculatePnl` (trade-tracker.service.ts:116-123). -/
def calculatePnl (position : TrackedPosition) (exitPrice : ℚ) : ℚ :=
  (match position.side with
   | .Buy => exitPrice - position.entryPrice
   | .Sell => position.entryPrice - exitPrice) * position.size

/-- C6: closure classification is side-aware — for a long,
`exit ≥ TP` gives TakeProfit, `exit ≤ SL` (with `exit < TP`) gives
StopLoss, strictly between gives Manual, mirrored for a short — and
the realized PnL is `(exit − entry) · size` for a long and
`(entry − exit) · size` for a short. -/
theorem closure_classification_and_pnl (position : TrackedPosition) (exitPrice : ℚ) :
    (position.side = Side.Buy →
      (position.takeProfit ≤ exitPrice → determineClosedType position exitPrice = .TP) ∧
      (exitPrice < position.takeProfit → exitPrice ≤ position.stopLoss →
        determineClosedType position exitPrice = .SL) ∧
      (position.stopLoss < exitPrice → exitPrice < position.takeProfit →
        determineClosedType position exitPrice = .Manual) ∧
      calculatePnl position exitPrice = (exitPrice - position.entryPrice) * position.size) ∧
    (position.side = Side.Sell →
      (exitPrice ≤ position.takeProfit → determineClosedType position exitPrice = .TP) ∧
      (position.takeProfit < exitPrice → position.stopLoss ≤ exitPrice →
        determineClosedType position exitPrice = .SL) ∧
      (position.takeProfit < exitPrice → exitPrice < position.stopLoss →
        determineClosedType position exitPrice = .Manual) ∧
      calculatePnl position exitPrice = (position.entryPrice - exitPrice) * position.size) := by
  constructor
  · intro hside
    refine ⟨?_, ?_, ?_, ?_⟩
    · intro h
      simp [determineClosedType, hside, h]
    · intro h1 h2
      simp [determineClosedType, hside, not_le.mpr h1, h2]
    · intro h1 h2
      simp [determineClosedType, hside, not_le.mpr h1, not_le.mpr h2]
    · simp [calculatePnl, hside]
  · intro hside
    refine ⟨?_, ?_, ?_, ?_⟩
    · intro h
      simp [determineClosedType, hside, h]
    · intro h1 h2
      simp [determineClosedType, hside, not_le.mpr h1, h2]
    · intro h1 h2
      simp [determineClosedType, hside, not_le.mpr h1, not_le.mpr h2]
    · simp [calculatePnl, hside]

/-- Witness for C6 at the spec's own test vector: long, entry 100,
TP 101, SL 99.65, size 2, exit 101 → TakeProfit with pnl 2. -/
theorem closure_classification_and_pnl_witness :
    determineClosedType ⟨"BTCUSDT", Side.Buy, 100, 101, 1993 / 20, 2, 0⟩ 101 = ClosedType.TP ∧
      calculatePnl ⟨"BTCUSDT", Side.Buy, 100, 101, 1993 / 20, 2, 0⟩ 101 = (101 - 100) * 2 :=
  ⟨((closure_classification_and_pnl ⟨"BTCUSDT", Side.Buy, 100, 101, 1993 / 20, 2, 0⟩ 101).1
      rfl).1 (by norm_num),
   ((closure_classification_and_pnl ⟨"BTCUSDT", Side.Buy, 100, 101, 1993 / 20, 2, 0⟩ 101).1
      rfl).2.2.2⟩

/-! ## Analytics Aggregator (trading-analytics.service.ts, in bybit.module.ts)

`processClosedPosition` (lines 48-63) updates the daily summary;
`getDailyStats` (lines 97-114) renders it, showing the win rate as
`(profitable / totalOrders * 100).toFixed(2)` (or `0.00` when no
orders) and the total PnL via `toFixed(2)`. -/

/-- A closed trade (trading-analytics.service.ts:17-25). -/
structure TradePosition where
  symbol : String
  side : Side
  entryPrice : ℚ
  exitPrice : ℚ
  pnl : ℚ
  timestamp : ℕ
  closedType : ClosedType
deriving DecidableEq, Repr

/-- The mutable daily summary (trading-analytics.service.ts:37-46);
the date string is omitted as it never changes after startup. -/
structure DailyStats where
  totalOrders : ℕ
  profitable : ℕ
  loss : ℕ
  totalProfit : ℚ
  positions : List TradePosition
deriving DecidableEq, Repr

/-- `processClosedPosition` (trading-analytics.service.ts:48-63). -/
def processClosedPosition (s : DailyStats) (position : TradePosition) : DailyStats :=
  { totalOrders := s.totalOrders + 1
    profitable := if 0 ≤ position.pnl then s.profitable + 1 else s.profitable
    loss := if 0 ≤ position.pnl then s.loss else s.loss + 1
    totalProfit := s.totalProfit + position.pnl
    positions := s.positions ++ [position] }

/-- Numeric value shown as the win rate by `getDailyStats`
(trading-analytics.service.ts:98-104): `(profitable / totalOrders *
100).toFixed(2)`, or the literal `0.00` when there are no orders. -/
def winRateShown (s : DailyStats) : ℚ :=
  if 0 < s.totalOrders then toFixedQ ((s.profitable : ℚ) / (s.totalOrders : ℚ) * 100) 2
  else 0

/-- Numeric value shown as the total PnL by `getDailyStats`
(trading-analytics.service.ts:112): `totalProfit.toFixed(2)`. -/
def totalPnlShown (s : DailyStats) : ℚ := toFixedQ s.totalProfit 2

/-- C8: recording a closed trade increments `totalOrders`, increments
the profitable counter exactly when `pnl ≥ 0` and the loss counter
otherwise, adds the pnl to the running total, and appends the trade
to the positions list; the rendered report shows the win rate as
`profitable/totalOrders` (as a percentage to two decimals, `0.00`
with no orders) and the total PnL to two decimals. -/
theorem analytics_record_and_report (s : DailyStats) (position : TradePosition) :
    (processClosedPosition s position).totalOrders = s.totalOrders + 1 ∧
    (0 ≤ position.pnl →
      (processClosedPosition s position).profitable = s.profitable + 1 ∧
      (processClosedPosition s position).loss = s.loss) ∧
    (position.pnl < 0 →
      (processClosedPosition s position).profitable = s.profitable ∧
      (processClosedPosition s position).loss = s.loss + 1) ∧
    (processClosedPosition s position).totalProfit = s.totalProfit + position.pnl ∧
    (processClosedPosition s position).positions = s.positions ++ [position] ∧
    (s.totalOrders = 0 → winRateShown s = 0) ∧
    (0 < s.totalOrders →
      winRateShown s = toFixedQ ((s.profitable : ℚ) / (s.totalOrders : ℚ) * 100) 2) ∧
    totalPnlShown s = toFixedQ s.totalProfit 2 := by
  refine ⟨rfl, ?_, ?_, rfl, rfl, ?_, ?_, rfl⟩
  · intro h
    constructor <;> simp [processClosedPosition, h]
  · intro h
    constructor <;> simp [processClosedPosition, not_le.mpr h]
  · intro h
    simp [winRateShown, h]
  · intro h
    simp [winRateShown, h]

/-- Witness for C8: recording a trade with pnl 5 on empty stats gives
1 order, 1 profitable, 0 losses, total 5; the empty report shows a
0.00 win rate. -/
theorem analytics_record_and_report_witness :
    (processClosedPosition ⟨0, 0, 0, 0, []⟩ ⟨"BTCUSDT", Side.Buy, 100, 105, 5, 0, .TP⟩).profitable
        = 1 ∧
      winRateShown ⟨0, 0, 0, 0, []⟩ = 0 :=
  ⟨((analytics_record_and_report ⟨0, 0, 0, 0, []⟩
      ⟨"BTCUSDT", Side.Buy, 100, 105, 5, 0, .TP⟩).2.1 (by norm_num)).1,
   (analytics_record_and_report ⟨0, 0, 0, 0, []⟩
      ⟨"BTCUSDT", Side.Buy, 100, 105, 5, 0, .TP⟩).2.2.2.2.2.1 rfl⟩

end LiqChecker
